import Mathlib

/-!
Verification of the route correlation engine of the routethink repository.

The Python sources operate on shapely LineStrings after projecting the
geographic coordinates to a local UTM plane.  The shallow embedding below
represents a planar geometry as a list of rational points.  The planar
segment length computed by the geometry library is abstracted as a
function parameter `slen : Pt → Pt → ℚ`; every general theorem assumes
only that segment lengths are nonnegative, which the Euclidean metric
satisfies, so the theorems cover the actual library metric.  Concrete
instances use `slenM`, the taxicab length, which coincides with the
Euclidean segment length on the axis-aligned configurations appearing in
those instances.  All control flow, clamping, accumulation, rounding and
record assembly logic is translated directly from the Python sources
(gpx_functions.py and better_search_poi.py).
-/

/-- A planar point, the embedding of a shapely coordinate pair. -/
abbrev Pt : Type := ℚ × ℚ

/-- A segment length function, abstracting the planar (UTM) segment length
used by the geometry library. -/
abbrev SLen : Type := Pt → Pt → ℚ

/-- A segment length function is admissible when it is nonnegative, as any
metric length is. -/
def NonnegLen (slen : SLen) : Prop := ∀ p q : Pt, 0 ≤ slen p q

/-- Taxicab segment length, used for concrete instances; it agrees with the
Euclidean length on axis-aligned segments. -/
def slenM : SLen := fun p q => |q.1 - p.1| + |q.2 - p.2|

/-- Vector difference of two points. -/
def subQ (p q : Pt) : Pt := (p.1 - q.1, p.2 - q.2)

/-- Dot product of two planar vectors. -/
def dotQ (u v : Pt) : ℚ := u.1 * v.1 + u.2 * v.2

/-- Squared Euclidean distance between two points.  Rational, hence exactly
computable; comparisons of squared distances order candidates exactly as
the Euclidean distances used by the geometry library do. -/
def dist2 (p q : Pt) : ℚ := dotQ (subQ p q) (subQ p q)

/-- Unclamped parameter of the orthogonal projection of `x` onto the
segment from `p` to `q` (0 at `p`, 1 at `q`); 0 for a degenerate segment. -/
def tRaw (p q x : Pt) : ℚ :=
  if dist2 q p = 0 then 0 else dotQ (subQ x p) (subQ q p) / dist2 q p

/-- Projection parameter clamped to the segment, as the nearest point on a
segment requires. -/
def tClamp (p q x : Pt) : ℚ := max 0 (min 1 (tRaw p q x))

/-- Point of the segment from `p` to `q` at parameter `t`. -/
def ptAt (p q : Pt) (t : ℚ) : Pt := (p.1 + t * (q.1 - p.1), p.2 + t * (q.2 - p.2))

/-- Planar length of a polyline: the sum of its segment lengths.  Embeds
the shapely length attribute used as `line.length` and `total_length` in
the sources. -/
def totalLength (slen : SLen) : List Pt → ℚ
  | p :: q :: rest => slen p q + totalLength slen (q :: rest)
  | _ => 0

/-- Loop body of cut_line_at_distance (gpx_functions.py lines 85-100):
walks consecutive segments keeping a running arc length `cur`; a segment
wholly before `sd` is skipped, the loop breaks once `cur` passes `ed`, and
otherwise the segment start vertex is collected. -/
def cutAux (slen : SLen) (sd ed : ℚ) : List Pt → ℚ → List Pt
  | p :: q :: rest, cur =>
    let L := slen p q
    if cur + L < sd then cutAux slen sd ed (q :: rest) (cur + L)
    else if ed < cur then []
    else p :: cutAux slen sd ed (q :: rest) (cur + L)
  | _, _ => []

/-- Embedding of cut_line_at_distance (gpx_functions.py lines 75-104):
clamps the start distance to 0 and the end distance to the line length,
collects vertices with the loop above, and, whenever anything was
collected, appends the final vertex of the whole input line, exactly as
`coords.append(line.coords[-1])` does. -/
def cut_line_at_distance (slen : SLen) (coords : List Pt) (sd ed : ℚ) : List Pt :=
  let total := totalLength slen coords
  let sd1 := if sd < 0 then 0 else sd
  let ed1 := if total < ed then total else ed
  let picked := cutAux slen sd1 ed1 coords 0
  match picked with
  | [] => []
  | ps =>
    match coords.getLast? with
    | some v => ps ++ [v]
    | none => ps

/-- Arc-length bounds the segmenter passes to the cut for chunk `i`
(gpx_functions.py lines 62-63), with the hard-coded overlap of 1000 m. -/
def chunkSpan (total cs : ℚ) (i : ℕ) : ℚ × ℚ :=
  (max 0 ((i : ℚ) * cs - 1000), min total (((i : ℚ) + 1) * cs + 1000))

/-- Embedding of split_route (gpx_functions.py lines 43-70): computes the
number of chunks as the ceiling of length over chunk size and cuts the
route at the overlapping spans. -/
def split_route (slen : SLen) (coords : List Pt) (cs : ℚ) : List (List Pt) :=
  let total := totalLength slen coords
  let n := (Int.ceil (total / cs)).toNat
  (List.range n).map (fun i =>
    cut_line_at_distance slen coords (chunkSpan total cs i).1 (chunkSpan total cs i).2)

/-- Length of the intersection of the arc-length spans the segmenter
assigns to chunk `i` and to chunk `i+1`. -/
def spanOverlapLen (total cs : ℚ) (i : ℕ) : ℚ :=
  min (chunkSpan total cs i).2 (chunkSpan total cs (i + 1)).2 -
    max (chunkSpan total cs i).1 (chunkSpan total cs (i + 1)).1

/-- The data of the buffer produced by create_route_buffer: the corridor
polygon itself is computed by the geometry library from exactly these two
parameters, so the embedding records them. -/
structure BufferResult where
  route : List Pt
  distance : ℚ
deriving DecidableEq

/-- The buffer failure taxonomy named by the specification. -/
inductive BufferError where
  | invalidParameter
deriving DecidableEq

/-- Embedding of create_route_buffer (gpx_functions.py lines 106-115).
The Python body performs no parameter validation: it reprojects the
route and calls the library buffer operation, which succeeds for every
finite distance (a non-positive distance yields a degenerate empty
polygon, not an exception).  The embedded function is therefore total
and never returns an error. -/
def create_route_buffer (coords : List Pt) (buffer_distance : ℚ) :
    Except BufferError BufferResult :=
  Except.ok { route := coords, distance := buffer_distance }

/-- Loop of the shapely linear-referencing projection used by
`route_utm.project(point_utm)`: walk the segments keeping the running arc
length `cur`, the best squared distance `bD2` so far, and the arc length
`bArc` of the best candidate; each segment contributes its nearest point
to `x` at the clamped parameter. -/
def projectAux (slen : SLen) (x : Pt) : List Pt → ℚ → ℚ → ℚ → ℚ
  | p :: q :: rest, cur, bD2, bArc =>
    let t := tClamp p q x
    let d2 := dist2 x (ptAt p q t)
    let L := slen p q
    if d2 < bD2 then projectAux slen x (q :: rest) (cur + L) d2 (cur + t * L)
    else projectAux slen x (q :: rest) (cur + L) bD2 bArc
  | _, _, _, bArc => bArc

/-- Arc length along the polyline of the point of the polyline nearest to
`x`; the embedding of `line.project(point)`.  The initial candidate is the
first vertex at arc length 0. -/
def lineProject (slen : SLen) (coords : List Pt) (x : Pt) : ℚ :=
  match coords with
  | p :: _ => projectAux slen x coords 0 (dist2 x p) 0
  | [] => 0

/-- The arc-length value of calculate_distance_along_route before unit
conversion (better_search_poi.py lines 160-166): the projection clamped
once more by the total length. -/
def distanceAlongRouteMeters (slen : SLen) (coords : List Pt) (x : Pt) : ℚ :=
  min (lineProject slen coords x) (totalLength slen coords)

/-- Integer rounding with ties to the even integer, the rounding used by
the Python built-in round. -/
def halfEvenInt (x : ℚ) : ℤ :=
  let n := ⌊x⌋
  let f := x - n
  if f < 1/2 then n
  else if 1/2 < f then n + 1
  else if n % 2 = 0 then n else n + 1

/-- Embedding of the Python expression round(v, 2): scale by 100, round
with ties to even, unscale. -/
def pyRound2 (q : ℚ) : ℚ := ((halfEvenInt (q * 100) : ℤ) : ℚ) / 100

/-- Modelled from the spec: rounding half-up to 2 decimal places, the
rounding the specification ascribes to distanceAlongRoute.  Stated only to
be compared with the rounding the code performs. -/
def specRoundHalfUp2 (q : ℚ) : ℚ :=
  let x := q * 100
  if x - ⌊x⌋ < 1/2 then ((⌊x⌋ : ℤ) : ℚ) / 100 else ((⌊x⌋ + 1 : ℤ) : ℚ) / 100

/-- Embedding of calculate_distance_along_route (better_search_poi.py
lines 147-180): the clamped projection in meters, divided by 1000 and
rounded to two decimals by the Python round. -/
def calculate_distance_along_route (slen : SLen) (coords : List Pt) (x : Pt) : ℚ :=
  pyRound2 (distanceAlongRouteMeters slen coords x / 1000)

/-- An administrative boundary candidate row as consumed by
process_settlements: a containment test on its polygon geometry (the
library predicate, abstracted as a Boolean function of the point), the
admin_level tag and the name tag.  Absent tags are `none`. -/
structure AdminRow where
  contains : Pt → Bool
  admin_level : Option String
  name : Option String

/-- A settlement candidate row as consumed by process_settlements: the
representative point (the geometry itself for a point feature, its
centroid otherwise, both computed by the library) and the tag bag fields
the function reads.  Absent tags are `none`. -/
structure SRow where
  point : Pt
  name : Option String
  place : Option String
  addr_county : Option String
  is_in_county : Option String
  is_in : Option String
  addr_state : Option String
  is_in_state : Option String
  addr_district : Option String
  addr_country : Option String
  is_in_country : Option String

/-- The record process_settlements emits for one settlement
(gpx_functions.py lines 196-204). -/
structure SettlementRec where
  name : String
  place_type : String
  coords : Pt
  locality : String
  country : String
  full_name : String

/-- One iteration of the admin-area loop of process_settlements
(gpx_functions.py lines 169-175): a containing polygon of admin_level 4
overwrites the locality, one of admin_level 2 overwrites the country; a
missing name keeps the previous value, exactly as
`admin_row.get(&quot;name&quot;, locality)` does. -/
def adminStep (point : Pt) (lc : String × String) (r : AdminRow) : String × String :=
  if r.contains point then
    if r.admin_level = some "4" then (r.name.getD lc.1, lc.2)
    else if r.admin_level = some "2" then (lc.1, r.name.getD lc.2)
    else lc
  else lc

/-- The admin-area loop of process_settlements: a left fold of the step
over the candidate polygons, starting from the Unknown pair. -/
def resolveAdmin (point : Pt) (admin : List AdminRow) : String × String :=
  admin.foldl (adminStep point) ("Unknown", "Unknown")

/-- The name of the last candidate polygon that contains the point, has
admin_level 4, and carries a name; `none` when there is no such polygon.
Later list entries take precedence, mirroring the overwriting loop. -/
def last4Name (point : Pt) : List AdminRow → Option String
  | [] => none
  | r :: rest =>
    (last4Name point rest).or
      (if r.contains point ∧ r.admin_level = some "4" then r.name else none)

/-- The name of the last candidate polygon that contains the point, has
admin_level 2, and carries a name; `none` when there is no such polygon. -/
def last2Name (point : Pt) : List AdminRow → Option String
  | [] => none
  | r :: rest =>
    (last2Name point rest).or
      (if r.contains point ∧ r.admin_level = some "2" then r.name else none)

/-- Python truthiness of an optional string tag: absent and empty values
are falsy. -/
def pyTruthy : Option String → Bool
  | none => false
  | some s => decide (s ≠ "")

/-- The Python `or` chain over optional tag values with a final default:
the first truthy value wins, otherwise the default. -/
def firstTruthy : List (Option String) → String → String
  | [], d => d
  | none :: rest, d => firstTruthy rest d
  | some s :: rest, d => if s = "" then firstTruthy rest d else s

/-- Embedding of the body of process_settlements for one settlement row
(gpx_functions.py lines 152-204): resolve locality and country from the
containing admin areas, fall back to the tag chains, and assemble the
record with the formatted full_name. -/
def processSettlement (admin : List AdminRow) (row : SRow) : SettlementRec :=
  let name := row.name.getD "Unknown"
  let place_type := row.place.getD "Unknown"
  let point := row.point
  let lc := resolveAdmin point admin
  let locality :=
    if lc.1 = "Unknown" then
      firstTruthy [row.addr_county, row.is_in_county, row.is_in,
                   row.addr_state, row.is_in_state, row.addr_district] "Unknown"
    else lc.1
  let country :=
    if lc.2 = "Unknown" then
      firstTruthy [row.addr_country, row.is_in_country] "United Kingdom"
    else lc.2
  { name := name
    place_type := place_type
    coords := point
    locality := locality
    country := country
    full_name := name ++ ", " ++ locality ++ ", " ++ country }

/-- Embedding of process_settlements (gpx_functions.py lines 148-209):
process every settlement row against the admin areas. -/
def process_settlements (settlements : List SRow) (admin : List AdminRow) :
    List SettlementRec :=
  settlements.map (processSettlement admin)

/-- A POI candidate row as consumed by process_single_poi: representative
point (point geometry or library centroid) and the tags the function
reads. -/
structure PoiRow where
  point : Pt
  name : Option String
  shop : Option String
  tourism : Option String

/-- The record process_single_poi emits (better_search_poi.py lines
130-142), restricted to the fields computed by the core: the
elevation and nearest-settlement fields are filled by external network
collaborators and are outside the embedded core. -/
structure PoiRec where
  name : String
  poiType : String
  specific_type : Option String
  coords : Pt
  distance_km : ℚ

/-- Embedding of process_single_poi (better_search_poi.py lines 99-145):
name with default, latitude-longitude swap of the representative point,
specific type keyed on the category, and the along-route distance. -/
def process_single_poi (slen : SLen) (route : List Pt) (poiType : String)
    (row : PoiRow) : PoiRec :=
  { name := row.name.getD "Unnamed"
    poiType := poiType
    specific_type := if poiType = "shop" then row.shop else row.tourism
    coords := (row.point.2, row.point.1)
    distance_km := calculate_distance_along_route slen route row.point }

/-- Embedding of process_pois (better_search_poi.py lines 70-97): build
the records for the shops, then the campsites, in candidate order, and
sort by along-route distance.  The Python list sort is a stable ascending
sort, which insertion sort with the weak ordering on the key implements
exactly (a stable sort is extensionally unique). -/
def process_pois (slen : SLen) (route : List Pt) (shops camps : List PoiRow) :
    List PoiRec :=
  List.insertionSort (fun a b => a.distance_km ≤ b.distance_km)
    (shops.map (process_single_poi slen route "shop") ++
     camps.map (process_single_poi slen route "campsite"))

lemma totalLength_nonneg (slen : SLen) (h : NonnegLen slen) :
    ∀ l : List Pt, 0 ≤ totalLength slen l := by
  intro l
  induction l with
  | nil => simp [totalLength]
  | cons p tail ih =>
    cases tail with
    | nil => simp [totalLength]
    | cons q rest =>
      simp only [totalLength]
      exact add_nonneg (h p q) ih

lemma tClamp_nonneg (p q x : Pt) : 0 ≤ tClamp p q x := le_max_left 0 _

lemma tClamp_le_one (p q x : Pt) : tClamp p q x ≤ 1 :=
  max_le (by norm_num) (min_le_left 1 _)

lemma projectAux_bounds (slen : SLen) (h : NonnegLen slen) (x : Pt) :
    ∀ (l : List Pt) (cur bD2 bArc : ℚ), 0 ≤ cur → 0 ≤ bArc → bArc ≤ cur →
      0 ≤ projectAux slen x l cur bD2 bArc ∧
      projectAux slen x l cur bD2 bArc ≤ cur + totalLength slen l := by
  intro l
  induction l with
  | nil =>
    intro cur bD2 bArc hc hb hbc
    simp only [projectAux, totalLength]
    exact ⟨hb, by linarith⟩
  | cons p tail ih =>
    intro cur bD2 bArc hc hb hbc
    cases tail with
    | nil =>
      simp only [projectAux, totalLength]
      exact ⟨hb, by linarith⟩
    | cons q rest =>
      have hL : 0 ≤ slen p q := h p q
      have ht0 : 0 ≤ tClamp p q x := tClamp_nonneg p q x
      have ht1 : tClamp p q x ≤ 1 := tClamp_le_one p q x
      simp only [projectAux, totalLength]
      split
      · have h1 : 0 ≤ cur + slen p q := by linarith
        have h2 : 0 ≤ cur + tClamp p q x * slen p q := by positivity
        have h3 : cur + tClamp p q x * slen p q ≤ cur + slen p q := by
          have := mul_le_of_le_one_left hL ht1
          linarith
        have := ih (cur + slen p q) (dist2 x (ptAt p q (tClamp p q x)))
          (cur + tClamp p q x * slen p q) h1 h2 h3
        exact ⟨this.1, by linarith [this.2]⟩
      · have h1 : 0 ≤ cur + slen p q := by linarith
        have h3 : bArc ≤ cur + slen p q := by linarith
        have := ih (cur + slen p q) bD2 bArc h1 hb h3
        exact ⟨this.1, by linarith [this.2]⟩

lemma lineProject_bounds (slen : SLen) (h : NonnegLen slen) (coords : List Pt)
    (x : Pt) : 0 ≤ lineProject slen coords x ∧
      lineProject slen coords x ≤ totalLength slen coords := by
  cases coords with
  | nil => simp [lineProject, totalLength]
  | cons p tail =>
    simp only [lineProject]
    have := projectAux_bounds slen h x (p :: tail) 0 (dist2 x p) 0 le_rfl le_rfl le_rfl
    exact ⟨this.1, by linarith [this.2]⟩

lemma dist2_nonneg (p q : Pt) : 0 ≤ dist2 p q := by
  simp only [dist2, dotQ, subQ]
  have h1 := mul_self_nonneg (p.1 - q.1)
  have h2 := mul_self_nonneg (p.2 - q.2)
  linarith

lemma twoPoint_project_beyond_start (slen : SLen) (p q x : Pt)
    (h : tRaw p q x ≤ 0) : lineProject slen [p, q] x = 0 := by
  have ht : tClamp p q x = 0 := by
    rw [tClamp, min_eq_right (h.trans zero_le_one)]
    exact max_eq_left h
  simp only [lineProject, projectAux, ht]
  split <;> ring

lemma twoPoint_project_beyond_end (slen : SLen) (p q x : Pt)
    (h : 1 ≤ tRaw p q x) : lineProject slen [p, q] x = slen p q := by
  by_cases hD : dist2 q p = 0
  · rw [tRaw, if_pos hD] at h
    exact absurd h (by norm_num)
  · have hDpos : 0 < dist2 q p := lt_of_le_of_ne (dist2_nonneg q p) (Ne.symm hD)
    have hdot : dist2 q p ≤ dotQ (subQ x p) (subQ q p) := by
      rw [tRaw, if_neg hD] at h
      exact (one_le_div hDpos).mp h
    have hkey : dist2 x p - dist2 x q = 2 * dotQ (subQ x p) (subQ q p) - dist2 q p := by
      simp only [dist2, dotQ, subQ]
      ring
    have hlt : dist2 x q < dist2 x p := by linarith
    have ht : tClamp p q x = 1 := by
      rw [tClamp, min_eq_left h]
      exact max_eq_right zero_le_one
    have hpt : ptAt p q 1 = q := by
      simp only [ptAt, Prod.ext_iff]
      constructor <;> ring
    simp only [lineProject, projectAux, ht, hpt]
    rw [if_pos hlt]
    ring

/-- Claim C1: for every route and every input point, the along-route
projection primitive of calculate_distance_along_route (the arc-length
value before unit conversion) lies in the closed interval from 0 to the
route length; on a single-segment route, a point whose projection
parameter falls beyond an endpoint collapses to that endpoint arc
length (0 at the start, the full length at the end). -/
theorem claim_C1 (slen : SLen) (hlen : NonnegLen slen) (coords : List Pt)
    (hroute : 2 ≤ coords.length) (x : Pt) :
    (0 ≤ distanceAlongRouteMeters slen coords x ∧
     distanceAlongRouteMeters slen coords x ≤ totalLength slen coords) ∧
    ∀ p q : Pt, coords = [p, q] →
      (tRaw p q x ≤ 0 → distanceAlongRouteMeters slen coords x = 0) ∧
      (1 ≤ tRaw p q x →
        distanceAlongRouteMeters slen coords x = totalLength slen coords) := by
  constructor
  · constructor
    · exact le_min (lineProject_bounds slen hlen coords x).1
        (totalLength_nonneg slen hlen coords)
    · exact min_le_right _ _
  · intro p q hc
    subst hc
    constructor
    · intro h
      rw [distanceAlongRouteMeters, twoPoint_project_beyond_start slen p q x h]
      exact min_eq_left (totalLength_nonneg slen hlen [p, q])
    · intro h
      rw [distanceAlongRouteMeters, twoPoint_project_beyond_end slen p q x h]
      have htot : totalLength slen [p, q] = slen p q := by
        simp [totalLength]
      rw [htot, min_self]

/-- Witness for claim C1 at a concrete route, length function and point. -/
theorem claim_C1_witness :
    NonnegLen (fun _ _ => (1 : ℚ)) ∧
    2 ≤ ([((0 : ℚ), (0 : ℚ)), (1, 0)] : List Pt).length ∧
    (0 ≤ distanceAlongRouteMeters (fun _ _ => (1 : ℚ)) [((0 : ℚ), (0 : ℚ)), (1, 0)] (5, 5) ∧
     distanceAlongRouteMeters (fun _ _ => (1 : ℚ)) [((0 : ℚ), (0 : ℚ)), (1, 0)] (5, 5) ≤
       totalLength (fun _ _ => (1 : ℚ)) [((0 : ℚ), (0 : ℚ)), (1, 0)]) :=
  ⟨fun _ _ => zero_le_one, by decide,
   (claim_C1 (fun _ _ => (1 : ℚ)) (fun _ _ => zero_le_one) _ (by decide) (5, 5)).1⟩

/-- Claim C2 (code bug): cutting the four-vertex unit-spaced line at the
arc-length window from 0 to 1 returns a slice that contains the final
vertex of the whole route, which sits at arc length 3, strictly beyond the
end bound 1: cut_line_at_distance unconditionally appends the last vertex
of the input line to every nonempty slice, so a slice ending strictly
before the route end does contain a vertex beyond the end bound. -/
theorem claim_C2_bug :
    cut_line_at_distance slenM [((0 : ℚ), (0 : ℚ)), (1, 0), (2, 0), (3, 0)] 0 1 =
      [((0 : ℚ), (0 : ℚ)), (1, 0), (3, 0)] ∧
    ((3 : ℚ), (0 : ℚ)) ∈
      cut_line_at_distance slenM [((0 : ℚ), (0 : ℚ)), (1, 0), (2, 0), (3, 0)] 0 1 ∧
    totalLength slenM [((0 : ℚ), (0 : ℚ)), (1, 0), (2, 0), (3, 0)] = 3 ∧
    (1 : ℚ) < 3 := by
  have h : cut_line_at_distance slenM [((0 : ℚ), (0 : ℚ)), (1, 0), (2, 0), (3, 0)] 0 1 =
      [((0 : ℚ), (0 : ℚ)), (1, 0), (3, 0)] := by
    norm_num [cut_line_at_distance, cutAux, totalLength, slenM]
  refine ⟨h, ?_, ?_, by norm_num⟩
  · rw [h]
    simp
  · norm_num [totalLength, slenM]

/-- Claim C3: for a route of positive planar length and a positive chunk
size, split_route produces exactly the ceiling of length over chunk size
many chunks, and the i-th chunk is the cut of the route at the arc-length
span from max(0, i*cs - 1000) to min(length, (i+1)*cs + 1000), the
hard-coded overlap being 1000 m. -/
theorem claim_C3 (slen : SLen) (coords : List Pt) (cs : ℚ)
    (hpos : 0 < totalLength slen coords) (hcs : 0 < cs) :
    ((split_route slen coords cs).length : ℤ) =
      Int.ceil (totalLength slen coords / cs) ∧
    ∀ i : ℕ, i < (split_route slen coords cs).length →
      (split_route slen coords cs)[i]? =
        some (cut_line_at_distance slen coords
          (chunkSpan (totalLength slen coords) cs i).1
          (chunkSpan (totalLength slen coords) cs i).2) := by
  have hceil : 0 < Int.ceil (totalLength slen coords / cs) :=
    Int.ceil_pos.mpr (div_pos hpos hcs)
  constructor
  · simp only [split_route, List.length_map, List.length_range]
    exact Int.toNat_of_nonneg hceil.le
  · intro i hi
    simp only [split_route, List.length_map, List.length_range] at hi
    simp [split_route, List.getElem?_map, List.getElem?_range, hi]

/-- Witness for claim C3 at a concrete route and chunk size. -/
theorem claim_C3_witness :
    0 < totalLength slenM [((0 : ℚ), (0 : ℚ)), (12000, 0)] ∧
    (0 : ℚ) < 5000 ∧
    ((split_route slenM [((0 : ℚ), (0 : ℚ)), (12000, 0)] 5000).length : ℤ) =
      Int.ceil (totalLength slenM [((0 : ℚ), (0 : ℚ)), (12000, 0)] / 5000) :=
  ⟨by norm_num [totalLength, slenM], by norm_num,
   (claim_C3 slenM [((0 : ℚ), (0 : ℚ)), (12000, 0)] 5000
     (by norm_num [totalLength, slenM]) (by norm_num)).1⟩

/-- Claim C4 counterexample: on a 12000 m route with chunk size 5000 the
segmenter produces 3 chunks, and the spans of adjacent chunks 0 and 1
share 2000 m of arc length, not the 1000 m overlap parameter the claim
asserts. -/
theorem claim_C4_counter :
    (split_route slenM [((0 : ℚ), (0 : ℚ)), (12000, 0)] 5000).length = 3 ∧
    spanOverlapLen (totalLength slenM [((0 : ℚ), (0 : ℚ)), (12000, 0)]) 5000 0 = 2000 ∧
    (2000 : ℚ) ≠ 1000 := by
  have hT : totalLength slenM [((0 : ℚ), (0 : ℚ)), (12000, 0)] = 12000 := by
    norm_num [totalLength, slenM]
  have hceil : Int.ceil ((12000 : ℚ) / 5000) = 3 := by
    rw [Int.ceil_eq_iff] <;> norm_num
  refine ⟨?_, ?_, by norm_num⟩
  · simp only [split_route, List.length_map, List.length_range]
    rw [hT, hceil]
    rfl
  · rw [hT]
    have h1 : (chunkSpan (12000 : ℚ) 5000 0).2 = 6000 := by
      simp only [chunkSpan]
      norm_num
    have h2 : (chunkSpan (12000 : ℚ) 5000 1).2 = 11000 := by
      simp only [chunkSpan]
      norm_num
    have h3 : (chunkSpan (12000 : ℚ) 5000 0).1 = 0 := by
      simp only [chunkSpan]
      norm_num
    have h4 : (chunkSpan (12000 : ℚ) 5000 1).1 = 4000 := by
      simp only [chunkSpan]
      norm_num
    rw [spanOverlapLen, h1, h2, h3, h4]
    norm_num

/-- Claim C4 (amended): whenever neither clamp binds (the left bound of
chunk i+1 stays nonnegative and the right bound of chunk i stays within
the route), the arc-length spans of adjacent chunks i and i+1 produced by
split_route overlap by exactly twice the 1000 m overlap margin, that is by
2000 m. -/
theorem claim_C4 (slen : SLen) (coords : List Pt) (cs : ℚ) (i : ℕ)
    (hcs : 0 < cs)
    (hn : i + 1 < (split_route slen coords cs).length)
    (hleft : 1000 ≤ ((i : ℚ) + 1) * cs)
    (hright : ((i : ℚ) + 1) * cs + 1000 ≤ totalLength slen coords) :
    spanOverlapLen (totalLength slen coords) cs i = 2 * 1000 := by
  have hcast : ((i + 1 : ℕ) : ℚ) = (i : ℚ) + 1 := by push_cast; ring
  have hstep : ((i : ℚ) + 1) * cs + cs = ((i : ℚ) + 1 + 1) * cs := by ring
  have hmin : min (chunkSpan (totalLength slen coords) cs i).2
      (chunkSpan (totalLength slen coords) cs (i + 1)).2 =
      ((i : ℚ) + 1) * cs + 1000 := by
    simp only [chunkSpan, hcast]
    rw [min_eq_right hright]
    exact min_eq_left (le_min (by linarith) (by linarith))
  have hmax : max (chunkSpan (totalLength slen coords) cs i).1
      (chunkSpan (totalLength slen coords) cs (i + 1)).1 =
      ((i : ℚ) + 1) * cs - 1000 := by
    have hi0 : (0 : ℚ) ≤ (i : ℚ) := Nat.cast_nonneg i
    simp only [chunkSpan, hcast]
    rw [max_eq_right (by linarith : (0 : ℚ) ≤ ((i : ℚ) + 1) * cs - 1000)]
    rw [max_eq_right]
    apply max_le (by linarith)
    nlinarith
  rw [spanOverlapLen, hmin, hmax]
  ring

/-- Witness for the amended claim C4 at a concrete route, chunk size and
chunk index. -/
theorem claim_C4_witness :
    (0 : ℚ) < 5000 ∧
    0 + 1 < (split_route slenM [((0 : ℚ), (0 : ℚ)), (12000, 0)] 5000).length ∧
    (1000 : ℚ) ≤ (((0 : ℕ) : ℚ) + 1) * 5000 ∧
    (((0 : ℕ) : ℚ) + 1) * 5000 + 1000 ≤ totalLength slenM [((0 : ℚ), (0 : ℚ)), (12000, 0)] ∧
    spanOverlapLen (totalLength slenM [((0 : ℚ), (0 : ℚ)), (12000, 0)]) 5000 0 = 2 * 1000 := by
  have hT : totalLength slenM [((0 : ℚ), (0 : ℚ)), (12000, 0)] = 12000 := by
    norm_num [totalLength, slenM]
  have hceil : Int.ceil ((12000 : ℚ) / 5000) = 3 := by
    rw [Int.ceil_eq_iff] <;> norm_num
  have hlen : (split_route slenM [((0 : ℚ), (0 : ℚ)), (12000, 0)] 5000).length = 3 := by
    simp only [split_route, List.length_map, List.length_range]
    rw [hT, hceil]
    rfl
  refine ⟨by norm_num, by rw [hlen]; norm_num, by norm_num, by rw [hT]; norm_num, ?_⟩
  exact claim_C4 slenM [((0 : ℚ), (0 : ℚ)), (12000, 0)] 5000 0 (by norm_num)
    (by rw [hlen]; norm_num) (by norm_num) (by rw [hT]; norm_num)

/-- Claim C5 counterexample: on a zero-length route split_route returns
the empty list of chunks, not a single chunk equal to the whole route. -/
theorem claim_C5_counter :
    split_route slenM [((0 : ℚ), (0 : ℚ)), (0, 0)] 50000 = [] ∧
    (split_route slenM [((0 : ℚ), (0 : ℚ)), (0, 0)] 50000).length ≠ 1 := by
  have hT : totalLength slenM [((0 : ℚ), (0 : ℚ)), (0, 0)] = 0 := by
    norm_num [totalLength, slenM]
  have h : split_route slenM [((0 : ℚ), (0 : ℚ)), (0, 0)] 50000 = [] := by
    simp only [split_route]
    rw [hT]
    norm_num
  exact ⟨h, by rw [h]; simp⟩

/-- Claim C5 (amended): a route of planar length zero yields zero chunks:
split_route returns the empty list, because the ceiling of 0 over the
chunk size is 0. -/
theorem claim_C5 (slen : SLen) (coords : List Pt) (cs : ℚ)
    (h0 : totalLength slen coords = 0) (hcs : 0 < cs) :
    split_route slen coords cs = [] := by
  simp [split_route, h0]

/-- Witness for the amended claim C5 at a concrete degenerate route. -/
theorem claim_C5_witness :
    totalLength slenM [((0 : ℚ), (0 : ℚ)), (0, 0)] = 0 ∧ (0 : ℚ) < 50000 ∧
    split_route slenM [((0 : ℚ), (0 : ℚ)), (0, 0)] 50000 = [] :=
  ⟨by norm_num [totalLength, slenM], by norm_num,
   claim_C5 slenM [((0 : ℚ), (0 : ℚ)), (0, 0)] 50000
     (by norm_num [totalLength, slenM]) (by norm_num)⟩

lemma halfEvenInt_close (x : ℚ) : |((halfEvenInt x : ℤ) : ℚ) - x| ≤ 1 / 2 := by
  have hfl : ((⌊x⌋ : ℤ) : ℚ) ≤ x := Int.floor_le x
  have hfu : x < ((⌊x⌋ : ℤ) : ℚ) + 1 := Int.lt_floor_add_one x
  simp only [halfEvenInt]
  split_ifs with h1 h2 h3 <;> rw [abs_le] <;> push_cast <;>
    constructor <;> linarith

lemma pyRound2_close (q : ℚ) : |pyRound2 q - q| ≤ 1 / 200 := by
  have h := halfEvenInt_close (q * 100)
  rw [pyRound2]
  have heq : ((halfEvenInt (q * 100) : ℤ) : ℚ) / 100 - q =
      (((halfEvenInt (q * 100) : ℤ) : ℚ) - q * 100) / 100 := by ring
  rw [heq, abs_div]
  rw [show |(100 : ℚ)| = 100 by norm_num]
  linarith [abs_nonneg (((halfEvenInt (q * 100) : ℤ) : ℚ) - q * 100)]

/-- Claim C6 counterexample: for the 1000 m straight route and the point
projecting to exactly 125 m along it, the code returns 0.12 km (the
Python round is a round-half-to-even), while rounding half-up as the
claim states would return 0.13 km. -/
theorem claim_C6_counter :
    calculate_distance_along_route slenM [((0 : ℚ), (0 : ℚ)), (1000, 0)] (125, 50) = 12 / 100 ∧
    specRoundHalfUp2
      (distanceAlongRouteMeters slenM [((0 : ℚ), (0 : ℚ)), (1000, 0)] (125, 50) / 1000) =
      13 / 100 ∧
    (12 : ℚ) / 100 ≠ 13 / 100 := by
  have hdm : distanceAlongRouteMeters slenM [((0 : ℚ), (0 : ℚ)), (1000, 0)] (125, 50) = 125 := by
    norm_num [distanceAlongRouteMeters, lineProject, projectAux, totalLength, slenM,
      tClamp, tRaw, dist2, dotQ, subQ, ptAt]
  have hfl : ⌊(125 : ℚ) / 1000 * 100⌋ = 12 := by
    rw [Int.floor_eq_iff] <;> norm_num
  refine ⟨?_, ?_, by norm_num⟩
  · rw [calculate_distance_along_route, hdm, pyRound2, halfEvenInt]
    rw [hfl]
    norm_num
  · rw [hdm, specRoundHalfUp2]
    simp only [hfl]
    norm_num

/-- Claim C6 (amended): calculate_distance_along_route returns the
arc-length value divided by 1000 and rounded to 2 decimal places with
ties to even (the Python round), hence an integer multiple of 0.01 within
0.005 of the exact value; it does not round half-up. -/
theorem claim_C6 (slen : SLen) (coords : List Pt) (x : Pt) :
    calculate_distance_along_route slen coords x =
      pyRound2 (distanceAlongRouteMeters slen coords x / 1000) ∧
    (∃ z : ℤ, calculate_distance_along_route slen coords x = (z : ℚ) / 100) ∧
    |calculate_distance_along_route slen coords x -
      distanceAlongRouteMeters slen coords x / 1000| ≤ 1 / 200 := by
  refine ⟨rfl, ⟨halfEvenInt (distanceAlongRouteMeters slen coords x / 1000 * 100), rfl⟩, ?_⟩
  exact pyRound2_close (distanceAlongRouteMeters slen coords x / 1000)

/-- Claim C9 counterexample: create_route_buffer succeeds at the negative
buffer distance -5, returning the buffer data rather than failing with
InvalidParameter, so non-positive distances are not rejected. -/
theorem claim_C9_counter :
    create_route_buffer [((0 : ℚ), (0 : ℚ)), (1, 0)] (-5) =
      Except.ok { route := [((0 : ℚ), (0 : ℚ)), (1, 0)], distance := -5 } ∧
    (-5 : ℚ) ≤ 0 :=
  ⟨rfl, by norm_num⟩

/-- Claim C9 (amended): create_route_buffer performs no parameter
validation at all: for every route and every buffer distance, including
non-positive ones, it succeeds with the buffer data of exactly that route
and distance, and never returns an InvalidParameter error. -/
theorem claim_C9 (coords : List Pt) (d : ℚ) :
    create_route_buffer coords d = Except.ok { route := coords, distance := d } ∧
    ∀ e : BufferError, create_route_buffer coords d ≠ Except.error e :=
  ⟨rfl, fun _ h => Except.noConfusion h⟩

lemma adminFold_eq (point : Pt) : ∀ (admin : List AdminRow) (init : String × String),
    List.foldl (adminStep point) init admin =
      ((last4Name point admin).getD init.1, (last2Name point admin).getD init.2) := by
  intro admin
  induction admin with
  | nil =>
    intro init
    simp [last4Name, last2Name]
  | cons r rest ih =>
    intro init
    rw [List.foldl_cons, ih]
    simp only [last4Name, last2Name]
    obtain ⟨l0, c0⟩ := init
    by_cases hc : r.contains point
    · by_cases h4 : r.admin_level = some "4"
      · have h2 : ¬r.admin_level = some "2" := by simp [h4]
        cases hl4 : last4Name point rest <;>
          cases hl2 : last2Name point rest <;>
            simp [adminStep, hc, h4, h2, Option.or]
      · by_cases h2 : r.admin_level = some "2"
        · cases hl4 : last4Name point rest <;>
            cases hl2 : last2Name point rest <;>
              simp [adminStep, hc, h4, h2, Option.or]
        · cases hl4 : last4Name point rest <;>
            cases hl2 : last2Name point rest <;>
              simp [adminStep, hc, h4, h2, Option.or]
    · cases hl4 : last4Name point rest <;>
        cases hl2 : last2Name point rest <;>
          simp [adminStep, hc, Option.or]

lemma firstTruthy_falsy (o : Option String) (rest : List (Option String))
    (d : String) (h : pyTruthy o = false) :
    firstTruthy (o :: rest) d = firstTruthy rest d := by
  cases o with
  | none => rfl
  | some s =>
    simp only [pyTruthy, decide_eq_false_iff_not, not_not] at h
    subst h
    simp [firstTruthy]

/-- Claim C8 (amended): when the supplied admin polygons contain the
settlement point, the locality attribute comes from the last containing
polygon of admin level 4 that carries a name, and the country attribute
from the last containing polygon of admin level 2 that carries a name, in
candidate order; the resolution consults no distances at all. -/
theorem claim_C8 (admin : List AdminRow) (row : SRow) (nm cm : String)
    (h4 : last4Name row.point admin = some nm) (h4u : nm ≠ "Unknown")
    (h2 : last2Name row.point admin = some cm) (h2u : cm ≠ "Unknown") :
    (processSettlement admin row).locality = nm ∧
    (processSettlement admin row).country = cm := by
  have hres : resolveAdmin row.point admin = (nm, cm) := by
    rw [resolveAdmin, adminFold_eq, h4, h2]
    rfl
  constructor
  · simp only [processSettlement, hres]
    rw [if_neg h4u]
  · simp only [processSettlement, hres]
    rw [if_neg h2u]

/-- Witness for the amended claim C8 at concrete polygons and row. -/
theorem claim_C8_witness :
    last4Name ((0 : ℚ), (0 : ℚ))
      [{ contains := fun _ => true, admin_level := some "4", name := some "X" },
       { contains := fun _ => true, admin_level := some "2", name := some "Y" }] = some "X" ∧
    ("X" : String) ≠ "Unknown" ∧
    last2Name ((0 : ℚ), (0 : ℚ))
      [{ contains := fun _ => true, admin_level := some "4", name := some "X" },
       { contains := fun _ => true, admin_level := some "2", name := some "Y" }] = some "Y" ∧
    ("Y" : String) ≠ "Unknown" ∧
    (processSettlement
      [{ contains := fun _ => true, admin_level := some "4", name := some "X" },
       { contains := fun _ => true, admin_level := some "2", name := some "Y" }]
      { point := ((0 : ℚ), (0 : ℚ)), name := some "S", place := some "village",
        addr_county := none, is_in_county := none, is_in := none, addr_state := none,
        is_in_state := none, addr_district := none, addr_country := none,
        is_in_country := none }).locality = "X" :=
  ⟨by decide, by decide, by decide, by decide,
   (claim_C8
     [{ contains := fun _ => true, admin_level := some "4", name := some "X" },
      { contains := fun _ => true, admin_level := some "2", name := some "Y" }]
     { point := ((0 : ℚ), (0 : ℚ)), name := some "S", place := some "village",
       addr_county := none, is_in_county := none, is_in := none, addr_state := none,
       is_in_state := none, addr_district := none, addr_country := none,
       is_in_country := none }
     "X" "Y" (by decide) (by decide) (by decide) (by decide)).1⟩

/-- Claim C8 counterexample: a point contained in two admin-level-4
polygons, the first named A and the second named B, resolves its locality
to B, the last containing polygon, not to the first containing polygon A
as the claim states. -/
theorem claim_C8_counter :
    ({ contains := fun _ => true, admin_level := some "4", name := some "A" } : AdminRow).contains
        ((0 : ℚ), (0 : ℚ)) = true ∧
    (processSettlement
      [{ contains := fun _ => true, admin_level := some "4", name := some "A" },
       { contains := fun _ => true, admin_level := some "4", name := some "B" }]
      { point := ((0 : ℚ), (0 : ℚ)), name := some "S", place := some "village",
        addr_county := none, is_in_county := none, is_in := none, addr_state := none,
        is_in_state := none, addr_district := none, addr_country := none,
        is_in_country := none }).locality = "B" ∧
    ("B" : String) ≠ "A" := by
  refine ⟨rfl, ?_, by decide⟩
  decide

/-- Claim C10: when a settlement record has no containing country-level
(admin level 2) polygon contributing a name and both the addr:country and
is_in:country tags are absent or empty, process_settlements assigns the
fixed default country United Kingdom, never Unknown, and the default also
appears as the final component of the full_name string. -/
theorem claim_C10 (admin : List AdminRow) (row : SRow)
    (h2 : last2Name row.point admin = none)
    (ha : pyTruthy row.addr_country = false)
    (hi : pyTruthy row.is_in_country = false) :
    (processSettlement admin row).country = "United Kingdom" ∧
    (processSettlement admin row).country ≠ "Unknown" ∧
    (processSettlement admin row).full_name =
      (processSettlement admin row).name ++ ", " ++
        (processSettlement admin row).locality ++ ", " ++ "United Kingdom" := by
  have hcountry : (resolveAdmin row.point admin).2 = "Unknown" := by
    rw [resolveAdmin, adminFold_eq, h2]
    rfl
  have hft : firstTruthy [row.addr_country, row.is_in_country] "United Kingdom" =
      "United Kingdom" := by
    rw [firstTruthy_falsy _ _ _ ha, firstTruthy_falsy _ _ _ hi]
    rfl
  have hcc : (processSettlement admin row).country = "United Kingdom" := by
    simp only [processSettlement]
    rw [hcountry]
    simp [hft]
  refine ⟨hcc, by rw [hcc]; decide, ?_⟩
  simp only [processSettlement]
  rw [hcountry]
  simp [hft]

/-- Witness for claim C10 at a concrete tagless settlement row with no
admin polygons. -/
theorem claim_C10_witness :
    last2Name ((0 : ℚ), (0 : ℚ)) [] = none ∧
    pyTruthy none = false ∧
    (processSettlement []
      { point := ((0 : ℚ), (0 : ℚ)), name := some "S", place := some "village",
        addr_county := none, is_in_county := none, is_in := none, addr_state := none,
        is_in_state := none, addr_district := none, addr_country := none,
        is_in_country := none }).country = "United Kingdom" :=
  ⟨rfl, rfl,
   (claim_C10 []
     { point := ((0 : ℚ), (0 : ℚ)), name := some "S", place := some "village",
       addr_county := none, is_in_county := none, is_in := none, addr_state := none,
       is_in_state := none, addr_district := none, addr_country := none,
       is_in_country := none }
     rfl rfl rfl).1⟩

instance : IsTotal PoiRec (fun u v => u.distance_km ≤ v.distance_km) :=
  ⟨fun a b => le_total a.distance_km b.distance_km⟩

instance : IsTrans PoiRec (fun u v => u.distance_km ≤ v.distance_km) :=
  ⟨fun _ _ _ hab hbc => le_trans hab hbc⟩

lemma filter_orderedInsert (k : ℚ) (a : PoiRec) (l : List PoiRec) :
    (List.orderedInsert (fun u v => u.distance_km ≤ v.distance_km) a l).filter
      (fun r => decide (r.distance_km = k)) =
    if a.distance_km = k then
      a :: l.filter (fun r => decide (r.distance_km = k))
    else l.filter (fun r => decide (r.distance_km = k)) := by
  induction l with
  | nil =>
    by_cases hak : a.distance_km = k <;>
      simp [List.orderedInsert, List.filter, hak]
  | cons b t ih =>
    simp only [List.orderedInsert]
    by_cases hab : a.distance_km ≤ b.distance_km
    · rw [if_pos hab]
      by_cases hak : a.distance_km = k <;>
        simp [List.filter_cons, hak]
    · rw [if_neg hab]
      by_cases hak : a.distance_km = k
      · have hbk : ¬b.distance_km = k := fun hb => hab (le_of_eq (hak.trans hb.symm))
        simp [List.filter_cons, hak, hbk, ih]
      · by_cases hbk : b.distance_km = k <;>
          simp [List.filter_cons, hak, hbk, ih]

lemma filter_insertionSort (k : ℚ) (l : List PoiRec) :
    (List.insertionSort (fun u v => u.distance_km ≤ v.distance_km) l).filter
      (fun r => decide (r.distance_km = k)) =
    l.filter (fun r => decide (r.distance_km = k)) := by
  induction l with
  | nil => rfl
  | cons a t ih =>
    simp only [List.insertionSort]
    rw [filter_orderedInsert]
    by_cases hak : a.distance_km = k
    · rw [if_pos hak, ih]
      simp [List.filter_cons, hak]
    · rw [if_neg hak, ih]
      simp [List.filter_cons, hak]

/-- Claim C7: the records produced by process_pois are sorted by
along-route distance in ascending order, and the sort is stable: for any
key, the records carrying that distance appear in exactly the order in
which their candidates entered the pipeline (shops in input order, then
campsites in input order). -/
theorem claim_C7 (slen : SLen) (route : List Pt) (shops camps : List PoiRow) :
    List.Sorted (fun u v => u.distance_km ≤ v.distance_km)
      (process_pois slen route shops camps) ∧
    ∀ k : ℚ,
      (process_pois slen route shops camps).filter (fun r => decide (r.distance_km = k)) =
      (shops.map (process_single_poi slen route "shop") ++
        camps.map (process_single_poi slen route "campsite")).filter
          (fun r => decide (r.distance_km = k)) := by
  constructor
  · exact List.sorted_insertionSort _ _
  · intro k
    exact filter_insertionSort k _
